import Mathlib

/-!
Verification of the data-wrangling core of `app1.py` (personal finance
dashboard): schema normalization, session ledger append, filter engine,
aggregation (KPIs, top-5), and CSV export.

Modelling conventions (shallow embedding):
* pandas timestamps carry only the calendar date here (the app builds them
  from date-only values: `st.date_input`, date strings in the CSV); the
  chronological order on timestamps is the lexicographic order on
  (year, month, day).
* `NaT` (null date) is `Option.none`; `pd.to_datetime(..., errors="coerce")`
  yields `none` on unparseable input.
* Amounts are rationals (finite floats); `pd.to_numeric(..., errors="coerce")`
  followed by `.fillna(0.0)` is `Option ℚ` with `getD 0`.
* A dataframe is a list of column names plus a list of rows; a raw
  (pre-normalization) row is a function from column name to cell, meaningful
  on the frame's columns.
-/

namespace App1

/-- A calendar date, as carried by the pandas timestamps the app builds. -/
structure Date where
  year : Nat
  month : Nat
  day : Nat
deriving DecidableEq, Repr

/-- Chronological order on dates (pandas `Timestamp` comparison restricted to
date-only values): lexicographic on (year, month, day). -/
def Date.le (a b : Date) : Bool :=
  decide (a.year < b.year) ||
    (decide (a.year = b.year) &&
      (decide (a.month < b.month) ||
        (decide (a.month = b.month) && decide (a.day ≤ b.day))))

/-- Running minimum over a list of dates, as `Series.min` computes it
(fold keeping the smaller element). -/
def minFold : Date → List Date → Date
  | d, [] => d
  | d, x :: xs => minFold (if Date.le d x then d else x) xs

/-- Running maximum over a list of dates, as `Series.max` computes it. -/
def maxFold : Date → List Date → Date
  | d, [] => d
  | d, x :: xs => maxFold (if Date.le d x then x else d) xs

end App1

namespace App1

/-- Zero-padding to two digits, as pandas renders month and day fields. -/
def pad2 (n : Nat) : String :=
  if n < 10 then "0" ++ toString n else toString n

/-- Zero-padding to four digits, as pandas renders the year field. -/
def pad4 (n : Nat) : String :=
  if n < 10 then "000" ++ toString n
  else if n < 100 then "00" ++ toString n
  else if n < 1000 then "0" ++ toString n
  else toString n

/-- How `DataFrame.to_csv` renders a date-only datetime cell: `YYYY-MM-DD`
(pandas uses the date-only format when every timestamp is at midnight, which
holds for the app's date-valued data), and the empty string for `NaT`.
The same rendering is used by the explicit `dt.strftime("%Y-%m-%d")` +
`fillna("")` display paths (app1.py lines 239, 247). -/
def renderDate : Option Date → String
  | none => ""
  | some d => pad4 d.year ++ "-" ++ pad2 d.month ++ "-" ++ pad2 d.day

/-- A raw dataframe cell before normalization. `pd.read_csv` type inference
already turns numeric columns into floats, so numeric text arrives as `num`;
date text that `pd.to_datetime` can parse is `date`; other text is `str`;
missing values are `null`. -/
inductive Cell where
  | num (q : ℚ)
  | str (s : String)
  | date (d : Date)
  | null
deriving DecidableEq, Repr

/-- `pd.to_numeric(cell, errors="coerce")`: numbers pass through unchanged
(including negative ones — there is no clamping in app1.py line 105);
anything non-numeric coerces to NaN, modelled as `none`. -/
def cellToNum : Cell → Option ℚ
  | .num q => some q
  | _ => none

/-- `pd.to_datetime(cell, errors="coerce")` (app1.py lines 64–70): parseable
date values pass through, everything else coerces to `NaT` (`none`). -/
def cellToDate : Cell → Option Date
  | .date d => some d
  | _ => none

/-- Reading a cell of a text column (Category/Notes/Gender) as a string.
Missing text cells are modelled as the empty string; non-string cells render
via their textual form (no claim exercises those corners). -/
def cellToStr : Cell → String
  | .str s => s
  | .null => ""
  | .num q => toString q
  | .date d => renderDate (some d)

/-- A transaction record after normalization: the five typed fields of the
working dataframe. Text fields are read as strings here (the source applies
`astype(str)` at each use site; the claims only involve string-valued cells,
for which this is the identity). -/
structure Row where
  date : Option Date
  category : String
  amount : ℚ
  notes : String
  gender : String
deriving DecidableEq, Repr

/-- The working dataframe: column names plus typed rows. Columns beyond the
required five may be present (uploads are never projected); rows only carry
the five fields the pipeline reads. -/
structure Table where
  cols : List String
  rows : List Row
deriving DecidableEq, Repr

/-- The five required columns, in the order of app1.py line 94. -/
def requiredCols : List String := ["Date", "Category", "Amount", "Notes", "Gender"]

/-- A raw uploaded dataframe: its columns, and each row as a map from column
name to cell (meaningful on `cols`). -/
structure RawTable where
  cols : List String
  rows : List (String → Cell)

/-- Columns the normalizer appends: the loop of app1.py lines 97–99 adds each
missing one of Category, Amount, Notes, Gender (in that order), then
`ensure_datetime_col` (line 69) adds Date when missing; pandas appends new
columns on the right. -/
def addedCols (cols : List String) : List String :=
  (["Category", "Amount", "Notes", "Gender"].filter fun c => decide (c ∉ cols)) ++
    (if "Date" ∈ cols then [] else ["Date"])

/-- Normalization of one row (app1.py lines 97–105): a missing
Category/Notes/Gender column is created filled with `""`, a missing Amount
column filled with `0`; Date is coerced with `errors="coerce"` (missing
column → all-NaT); Amount is coerced with `errors="coerce"` then
`.fillna(0.0)`. -/
def normRow (cols : List String) (cell : String → Cell) : Row :=
  { date := if "Date" ∈ cols then cellToDate (cell "Date") else none
    category := if "Category" ∈ cols then cellToStr (cell "Category") else ""
    amount := if "Amount" ∈ cols then (cellToNum (cell "Amount")).getD 0 else 0
    notes := if "Notes" ∈ cols then cellToStr (cell "Notes") else ""
    gender := if "Gender" ∈ cols then cellToStr (cell "Gender") else "" }

/-- The Schema Normalizer (app1.py lines 93–105). -/
def normalizeTable (t : RawTable) : Table :=
  { cols := t.cols ++ addedCols t.cols
    rows := t.rows.map (normRow t.cols) }

/-- The upload path (app1.py lines 79–105): a successful read feeds the raw
frame to the normalizer; a failed read shows `st.sidebar.error` (the returned
flag) and leaves `df = None`, which line 94 replaces by an empty frame with
the five required columns before the same normalization runs. -/
def processUpload : Option RawTable → Bool × Table
  | some raw => (false, normalizeTable raw)
  | none => (true, normalizeTable { cols := requiredCols, rows := [] })

/-- Input of the add-transaction form (app1.py lines 115–124). The number
input enforces `amount ≥ 0` (`min_value=0.0`); that bound is carried as a
hypothesis where needed, not re-checked here. -/
structure TxnInput where
  gender : String
  cat : String
  date : Date
  amount : ℚ
  notes : String
  tags : List String

/-- Python `str.strip()`: remove leading and trailing whitespace. Written
directly on the character list (extensionally `String.trim`, which however
does not reduce in the kernel). -/
def pyStrip (s : String) : String :=
  ⟨((s.data.dropWhile Char.isWhitespace).reverse.dropWhile Char.isWhitespace).reverse⟩

/-- Notes stored for a new transaction (app1.py lines 131–135): with tags,
`(notes + " | Tags: " + ", ".join(tags)).strip()`. -/
def buildNotes (notes : String) (tags : List String) : String :=
  if tags.isEmpty then notes
  else pyStrip (notes ++ " | Tags: " ++ String.intercalate ", " tags)

/-- Appending a session transaction (app1.py lines 126–137):
`pd.concat([df, pd.DataFrame([new_row])], ignore_index=True)`. -/
def addTransaction (t : Table) (inp : TxnInput) : Table :=
  { cols := t.cols
    rows := t.rows ++ [{ date := some inp.date, category := inp.cat,
                         amount := inp.amount,
                         notes := buildNotes inp.notes inp.tags,
                         gender := inp.gender }] }

/-- Category as the filter sees it: `astype(str).replace("", "(empty)")`
(app1.py lines 146, 172). -/
def dispCat (s : String) : String := if s = "" then "(empty)" else s

/-- Gender as the filter sees it: `astype(str).replace("", "Not specified")`
(app1.py lines 148, 173). -/
def dispGender (s : String) : String := if s = "" then "Not specified" else s

/-- A filter specification: the selected categories and genders and the
chosen date range (app1.py lines 146–158, 166–169). -/
structure FilterSpec where
  cats : List String
  genders : List String
  startD : Date
  endD : Date

/-- The row mask (app1.py lines 172–178): category membership AND gender
membership AND `Date.between(start, end)` — inclusive on both ends, false on
`NaT`. -/
def rowPass (fs : FilterSpec) (r : Row) : Bool :=
  decide (dispCat r.category ∈ fs.cats) &&
    decide (dispGender r.gender ∈ fs.genders) &&
    (match r.date with
     | none => false
     | some d => Date.le fs.startD d && Date.le d fs.endD)

/-- The Filter Engine: `dff = df.loc[mask]` (app1.py line 179). -/
def filterEngine (fs : FilterSpec) (t : Table) : Table :=
  { cols := t.cols, rows := t.rows.filter (rowPass fs) }

/-- Default category options (app1.py line 146): every distinct displayed
category of the ledger (sortedness does not affect membership, so the model
keeps first-occurrence order). -/
def allCats (t : Table) : List String :=
  (t.rows.map fun r => dispCat r.category).dedup

/-- Default gender options (app1.py line 148). -/
def allGenders (t : Table) : List String :=
  (t.rows.map fun r => dispGender r.gender).dedup

/-- The non-null dates of the ledger (pandas `min`/`max` skip NaT). -/
def nonNullDates (t : Table) : List Date :=
  t.rows.filterMap Row.date

/-- The default filter spec (app1.py lines 146–158): all categories, all
genders, and the min-to-max span of non-null dates, or today's date when
there are none. -/
def defaultSpec (today : Date) (t : Table) : FilterSpec :=
  match nonNullDates t with
  | [] => { cats := allCats t, genders := allGenders t, startD := today, endD := today }
  | d :: ds => { cats := allCats t, genders := allGenders t,
                 startD := minFold d ds, endD := maxFold d ds }

/-- The Month-column assignment (app1.py lines 184–188): run on the filtered
frame before the download button, it appends a `Month` column (pandas column
assignment overwrites in place when the column already exists). The rows'
five pipeline fields are unchanged. -/
def addMonthCol (t : Table) : Table :=
  { cols := t.cols ++ (if "Month" ∈ t.cols then [] else ["Month"]), rows := t.rows }

/-- `to_csv_bytes` (app1.py lines 61–62): the CSV text, UTF-8 encoded. -/
def to_csv_bytes (csv : String) : ByteArray := csv.toUTF8

/-- The file name passed to the download button (app1.py line 199). -/
def exportFileName : String := "filtered_expenses.csv"

/-- The header line of the exported CSV (`to_csv(index=False)`). -/
def exportCsvHeader (t : Table) : String := String.intercalate "," t.cols

/-- The rendered `Date` fields of the exported CSV, row by row. -/
def exportDateFields (t : Table) : List String :=
  t.rows.map fun r => renderDate r.date

/-- KPI: `total = dff["Amount"].sum()` (app1.py line 191). -/
def kpiTotal (t : Table) : ℚ := (t.rows.map Row.amount).sum

/-- KPI: `count = len(dff)` (app1.py line 193). -/
def kpiCount (t : Table) : Nat := t.rows.length

/-- KPI: `avg = dff["Amount"].mean() if len(dff) else 0.0` (app1.py
line 192); the mean is the sum divided by the length. -/
def kpiAvg (t : Table) : ℚ :=
  if t.rows.length = 0 then 0 else kpiTotal t / t.rows.length

/-- `Series.max` on a non-empty series: fold of the binary maximum. -/
def seriesMax : List ℚ → ℚ
  | [] => 0
  | a :: rest => rest.foldl max a

/-- KPI: `dff["Amount"].max() if count else 0` (app1.py line 198). -/
def kpiMax (t : Table) : ℚ :=
  if t.rows.length = 0 then 0 else seriesMax (t.rows.map Row.amount)

/-- The order `nlargest(5, "Amount")` with the default `keep="first"` sorts
by: larger amount first, and among equal amounts the smaller original
position first (pandas performs a stable mergesort on the amounts; on
position-tagged rows that is exactly this lexicographic order). -/
def topKey (p q : Nat × Row) : Prop :=
  q.2.amount < p.2.amount ∨ (q.2.amount = p.2.amount ∧ p.1 ≤ q.1)

instance : DecidableRel topKey := fun p q => by
  unfold topKey; exact inferInstance

/-- `dff.nlargest(n, "Amount")` (app1.py line 235) on position-tagged rows:
sort by `topKey`, keep the first `n`. -/
def top_n (n : Nat) (t : Table) : List (Nat × Row) :=
  (List.insertionSort topKey t.rows.enum).take n

/-- A concrete five-column ledger with one dated record (like the bundled
sample data). -/
def ledgerC1 : Table :=
  ⟨requiredCols, [⟨some ⟨2025, 1, 5⟩, "Groceries", 1200, "Big bazaar", "Not specified"⟩]⟩

/-- The full filter spec for `ledgerC1`. -/
def fullSpecC1 : FilterSpec :=
  ⟨["Groceries"], ["Not specified"], ⟨2025, 1, 5⟩, ⟨2025, 1, 5⟩⟩

/-- A raw upload whose `Amount` column holds a negative number. -/
def rawNeg : RawTable :=
  ⟨requiredCols, [fun c => if c = "Amount" then Cell.num (-5) else Cell.null]⟩

/-- A session-form input with a non-negative amount. -/
def txnW2 : TxnInput :=
  ⟨"Female", "Transport", ⟨2025, 10, 2⟩, 250, "auto", []⟩

/-- A ledger holding a single record with a null date. -/
def ledgerNullDate : Table :=
  ⟨requiredCols, [⟨none, "Groceries", 10, "", "Male"⟩]⟩

/-- A ledger whose records all carry dates. -/
def ledgerC3w : Table :=
  ⟨requiredCols,
   [⟨some ⟨2025, 1, 5⟩, "Groceries", 1200, "", "Male"⟩,
    ⟨some ⟨2025, 2, 2⟩, "Utility", 2100, "", "Female"⟩]⟩

/-- A raw upload with a single unrecognized column `Foo`. -/
def rawFoo : RawTable := ⟨["Foo"], [fun _ => Cell.null]⟩

/-- A raw upload missing the `Notes` column. -/
def rawNoNotes : RawTable :=
  ⟨["Date", "Category", "Amount", "Gender"], [fun _ => Cell.null]⟩

/-- A concrete two-record ledger for KPI evaluation. -/
def ledgerC6 : Table :=
  ⟨requiredCols,
   [⟨some ⟨2025, 1, 5⟩, "A", 100, "", "Male"⟩,
    ⟨some ⟨2025, 1, 6⟩, "B", 300, "", "Female"⟩]⟩

/-- A concrete three-record ledger with an amount tie for `top_n`. -/
def ledgerC7 : Table :=
  ⟨requiredCols,
   [⟨some ⟨2025, 1, 5⟩, "A", 100, "", "Male"⟩,
    ⟨some ⟨2025, 1, 6⟩, "B", 300, "", "Female"⟩,
    ⟨some ⟨2025, 1, 7⟩, "C", 100, "", "Male"⟩]⟩

/-- The form submission of claim C8: notes `"lunch"`, tags
`["food", "monthly"]`. -/
def txnLunch : TxnInput :=
  ⟨"Prefer not to say", "Groceries", ⟨2025, 10, 1⟩, 250, "lunch", ["food", "monthly"]⟩

/-- The form submission of claim C10: empty notes, non-empty tags. -/
def txnEmptyNotes : TxnInput :=
  ⟨"Female", "Transport", ⟨2025, 10, 2⟩, 60, "", ["food", "monthly"]⟩

end App1

namespace App1

theorem Date.le_refl (a : Date) : Date.le a a = true := by
  simp [Date.le]

theorem Date.le_total (a b : Date) : Date.le a b = true ∨ Date.le b a = true := by
  simp only [Date.le, Bool.or_eq_true, Bool.and_eq_true, decide_eq_true_eq]
  omega

theorem Date.le_trans {a b c : Date} (h₁ : Date.le a b = true) (h₂ : Date.le b c = true) :
    Date.le a c = true := by
  simp only [Date.le, Bool.or_eq_true, Bool.and_eq_true, decide_eq_true_eq] at h₁ h₂ ⊢
  omega

theorem minStep_le (d y : Date) :
    Date.le (if Date.le d y then d else y) d = true ∧
      Date.le (if Date.le d y then d else y) y = true := by
  by_cases h : Date.le d y = true
  · simp [h, Date.le_refl]
  · simp [h, (Date.le_total d y).resolve_left h, Date.le_refl]

theorem maxStep_le (d y : Date) :
    Date.le d (if Date.le d y then y else d) = true ∧
      Date.le y (if Date.le d y then y else d) = true := by
  by_cases h : Date.le d y = true
  · simp [h, Date.le_refl]
  · simp [h, (Date.le_total d y).resolve_left h, Date.le_refl]

theorem minFold_spec : ∀ (l : List Date) (d : Date),
    Date.le (minFold d l) d = true ∧ ∀ x ∈ l, Date.le (minFold d l) x = true := by
  intro l
  induction l with
  | nil => exact fun d => ⟨Date.le_refl d, by intro x hx; cases hx⟩
  | cons y ys ih =>
    intro d
    show Date.le (minFold (if Date.le d y then d else y) ys) d = true ∧ _
    obtain ⟨ih1, ih2⟩ := ih (if Date.le d y then d else y)
    refine ⟨Date.le_trans ih1 (minStep_le d y).1, ?_⟩
    intro x hx
    rcases List.mem_cons.mp hx with rfl | hx
    · exact Date.le_trans ih1 (minStep_le d x).2
    · exact ih2 x hx

theorem maxFold_spec : ∀ (l : List Date) (d : Date),
    Date.le d (maxFold d l) = true ∧ ∀ x ∈ l, Date.le x (maxFold d l) = true := by
  intro l
  induction l with
  | nil => exact fun d => ⟨Date.le_refl d, by intro x hx; cases hx⟩
  | cons y ys ih =>
    intro d
    show Date.le d (maxFold (if Date.le d y then y else d) ys) = true ∧ _
    obtain ⟨ih1, ih2⟩ := ih (if Date.le d y then y else d)
    refine ⟨Date.le_trans (maxStep_le d y).1 ih1, ?_⟩
    intro x hx
    rcases List.mem_cons.mp hx with rfl | hx
    · exact Date.le_trans (maxStep_le d x).2 ih1
    · exact ih2 x hx

theorem mem_allCats {t : Table} {r : Row} (hr : r ∈ t.rows) :
    dispCat r.category ∈ allCats t := by
  unfold allCats
  exact List.mem_dedup.mpr (List.mem_map.mpr ⟨r, hr, rfl⟩)

theorem mem_allGenders {t : Table} {r : Row} (hr : r ∈ t.rows) :
    dispGender r.gender ∈ allGenders t := by
  unfold allGenders
  exact List.mem_dedup.mpr (List.mem_map.mpr ⟨r, hr, rfl⟩)

theorem mem_nonNullDates {t : Table} {r : Row} {d : Date}
    (hr : r ∈ t.rows) (hd : r.date = some d) : d ∈ nonNullDates t := by
  unfold nonNullDates
  exact List.mem_filterMap.mpr ⟨r, hr, hd⟩

theorem rowPass_defaultSpec (today : Date) (t : Table) :
    ∀ r ∈ t.rows, rowPass (defaultSpec today t) r = r.date.isSome := by
  intro r hr
  cases hd : r.date with
  | none => simp [rowPass, hd]
  | some d =>
    have hmem : d ∈ nonNullDates t := mem_nonNullDates hr hd
    obtain ⟨d0, ds, hds⟩ : ∃ d0 ds, nonNullDates t = d0 :: ds := by
      cases h : nonNullDates t with
      | nil => rw [h] at hmem; cases hmem
      | cons d0 ds => exact ⟨d0, ds, rfl⟩
    rw [hds] at hmem
    obtain ⟨hmin1, hmin2⟩ := minFold_spec ds d0
    obtain ⟨hmax1, hmax2⟩ := maxFold_spec ds d0
    have hstart : Date.le (minFold d0 ds) d = true := by
      rcases List.mem_cons.mp hmem with rfl | hdm
      · exact hmin1
      · exact hmin2 d hdm
    have hend : Date.le d (maxFold d0 ds) = true := by
      rcases List.mem_cons.mp hmem with rfl | hdm
      · exact hmax1
      · exact hmax2 d hdm
    simp only [rowPass, defaultSpec, hds, hd, Option.isSome_some]
    simp [mem_allCats hr, mem_allGenders hr, hstart, hend]

theorem rowPass_date_isSome {fs : FilterSpec} {r : Row} (h : rowPass fs r = true) :
    ∃ d, r.date = some d := by
  cases hd : r.date with
  | none => rw [rowPass, hd] at h; simp at h
  | some d => exact ⟨d, rfl⟩

theorem foldl_max_bound : ∀ (l : List ℚ) (a : ℚ),
    a ≤ l.foldl max a ∧ ∀ x ∈ l, x ≤ l.foldl max a := by
  intro l
  induction l with
  | nil => exact fun a => ⟨le_refl a, by intro x hx; cases hx⟩
  | cons y ys ih =>
    intro a
    show a ≤ ys.foldl max (max a y) ∧ _
    obtain ⟨ih1, ih2⟩ := ih (max a y)
    refine ⟨le_trans (le_max_left a y) ih1, ?_⟩
    intro x hx
    rcases List.mem_cons.mp hx with rfl | hx
    · exact le_trans (le_max_right a x) ih1
    · exact ih2 x hx

theorem foldl_max_mem : ∀ (l : List ℚ) (a : ℚ),
    l.foldl max a = a ∨ l.foldl max a ∈ l := by
  intro l
  induction l with
  | nil => exact fun a => Or.inl rfl
  | cons y ys ih =>
    intro a
    show ys.foldl max (max a y) = a ∨ _
    rcases ih (max a y) with h | h
    · rcases max_choice a y with hm | hm
      · exact Or.inl (h.trans hm)
      · exact Or.inr (List.mem_cons.mpr (Or.inl (h.trans hm)))
    · exact Or.inr (List.mem_cons.mpr (Or.inr h))

instance : IsTotal (Nat × Row) topKey :=
  ⟨fun a b => by
    unfold topKey
    rcases lt_trichotomy a.2.amount b.2.amount with h | h | h
    · exact Or.inr (Or.inl h)
    · rcases Nat.le_total a.1 b.1 with h1 | h1
      · exact Or.inl (Or.inr ⟨h.symm, h1⟩)
      · exact Or.inr (Or.inr ⟨h, h1⟩)
    · exact Or.inl (Or.inl h)⟩

instance : IsTrans (Nat × Row) topKey :=
  ⟨fun a b c hab hbc => by
    unfold topKey at hab hbc ⊢
    rcases hab with hab | ⟨hab, hab'⟩ <;> rcases hbc with hbc | ⟨hbc, hbc'⟩
    · exact Or.inl (lt_trans hbc hab)
    · exact Or.inl (hbc ▸ hab)
    · exact Or.inl (hab ▸ hbc)
    · exact Or.inr ⟨hbc.trans hab, le_trans hab' hbc'⟩⟩

end App1

namespace App1

theorem seriesMax_spec (l : List ℚ) (h : l ≠ []) :
    seriesMax l ∈ l ∧ ∀ x ∈ l, x ≤ seriesMax l := by
  cases l with
  | nil => cases h rfl
  | cons a rest =>
    show rest.foldl max a ∈ _ ∧ _
    obtain ⟨h1, h2⟩ := foldl_max_bound rest a
    constructor
    · rcases foldl_max_mem rest a with hm | hm
      · rw [hm]; exact List.mem_cons_self a rest
      · exact List.mem_cons_of_mem a hm
    · intro x hx
      rcases List.mem_cons.mp hx with rfl | hx
      · exact h1
      · exact h2 x hx

theorem mem_normalized_cols {t : RawTable} {c : String}
    (hc : c ∈ ["Category", "Amount", "Notes", "Gender"]) :
    c ∈ (normalizeTable t).cols := by
  show c ∈ t.cols ++ addedCols t.cols
  by_cases h : c ∈ t.cols
  · exact List.mem_append_left _ h
  · refine List.mem_append_right _ (List.mem_append_left _ ?_)
    exact List.mem_filter.mpr ⟨hc, by simp [h]⟩

theorem date_mem_normalized_cols (t : RawTable) : "Date" ∈ (normalizeTable t).cols := by
  show "Date" ∈ t.cols ++ addedCols t.cols
  by_cases h : "Date" ∈ t.cols
  · exact List.mem_append_left _ h
  · refine List.mem_append_right _ (List.mem_append_right _ ?_)
    rw [if_neg h]
    exact List.mem_singleton.mpr rfl

theorem addedCols_subset (cols : List String) : ∀ c ∈ addedCols cols, c ∈ requiredCols := by
  intro c hc
  rcases List.mem_append.mp hc with h | h
  · have h1 := (List.mem_filter.mp h).1
    simp only [List.mem_cons, List.not_mem_nil, or_false] at h1
    rcases h1 with rfl | rfl | rfl | rfl
    · decide
    · decide
    · decide
    · decide
  · by_cases hd : "Date" ∈ cols
    · rw [if_pos hd] at h; cases h
    · rw [if_neg hd] at h
      rw [List.mem_singleton.mp h]
      decide

/-- C1 (amended): exporting any filtered subset of a five-column ledger
produces a UTF-8 CSV named `filtered_expenses.csv` whose columns are exactly
Date, Category, Amount, Notes, Gender and the derived `Month` column (added
to the filtered frame before the download button), with every `Date` value
rendered as `YYYY-MM-DD` (the filter excludes null dates, so the empty-string
rendering cannot occur in an export). -/
theorem C1_amended_export (fs : FilterSpec) (t : Table) (h : t.cols = requiredCols) :
    exportFileName = "filtered_expenses.csv" ∧
    (addMonthCol (filterEngine fs t)).cols = requiredCols ++ ["Month"] ∧
    exportCsvHeader (addMonthCol (filterEngine fs t))
      = "Date,Category,Amount,Notes,Gender,Month" ∧
    to_csv_bytes (exportCsvHeader (addMonthCol (filterEngine fs t)))
      = (exportCsvHeader (addMonthCol (filterEngine fs t))).toUTF8 ∧
    ∀ r ∈ (addMonthCol (filterEngine fs t)).rows,
      ∃ d, r.date = some d ∧
        renderDate r.date = pad4 d.year ++ "-" ++ pad2 d.month ++ "-" ++ pad2 d.day := by
  have hcols : (addMonthCol (filterEngine fs t)).cols = requiredCols ++ ["Month"] := by
    show t.cols ++ (if "Month" ∈ t.cols then [] else ["Month"]) = _
    rw [h, if_neg (by decide : ¬ ("Month" ∈ requiredCols))]
  refine ⟨rfl, hcols, ?_, rfl, ?_⟩
  · unfold exportCsvHeader
    rw [hcols]
    rfl
  · intro r hr
    have hr2 : r ∈ t.rows.filter (rowPass fs) := hr
    have hpass := (List.mem_filter.mp hr2).2
    obtain ⟨d, hd⟩ := rowPass_date_isSome hpass
    refine ⟨d, hd, ?_⟩
    rw [hd]
    rfl


/-- C1 (counterexample): on a concrete five-column ledger and full filter,
the exported frame's columns are not exactly the five required ones — the
`Month` column is also present. -/
theorem C1_counterexample :
    ¬ ∀ c ∈ (addMonthCol (filterEngine fullSpecC1 ledgerC1)).cols, c ∈ requiredCols := by
  decide

/-- C1 (witness): the amended export theorem applied to the concrete ledger. -/
theorem C1_witness :
    ledgerC1.cols = requiredCols ∧
      exportCsvHeader (addMonthCol (filterEngine fullSpecC1 ledgerC1))
        = "Date,Category,Amount,Notes,Gender,Month" :=
  ⟨rfl, (C1_amended_export fullSpecC1 ledgerC1 rfl).2.2.1⟩

/-- C2 (amended): every stored amount is a (finite) rational: an amount cell
that fails numeric coercion — or a missing Amount column — is stored as 0,
and a session-form amount (constrained to be non-negative by the input
control) is stored unchanged, hence non-negative; but amounts of uploaded
records pass through `pd.to_numeric` unclamped and may be negative. -/
theorem C2_amended_amounts :
    (∀ (cols : List String) (f : String → Cell), "Amount" ∈ cols →
      (normRow cols f).amount = (cellToNum (f "Amount")).getD 0) ∧
    (∀ (cols : List String) (f : String → Cell), "Amount" ∈ cols →
      cellToNum (f "Amount") = none → (normRow cols f).amount = 0) ∧
    (∀ (cols : List String) (f : String → Cell), "Amount" ∉ cols →
      (normRow cols f).amount = 0) ∧
    (∀ (t : Table) (inp : TxnInput), 0 ≤ inp.amount →
      ∀ r ∈ (addTransaction t inp).rows, r ∈ t.rows ∨ 0 ≤ r.amount) := by
  refine ⟨?_, ?_, ?_, ?_⟩
  · intro cols f h; simp [normRow, h]
  · intro cols f h h0; simp [normRow, h, h0]
  · intro cols f h; simp [normRow, h]
  · intro t inp h r hr
    rcases List.mem_append.mp hr with h1 | h1
    · exact Or.inl h1
    · rw [List.mem_singleton.mp h1]
      exact Or.inr h

/-- C2 (counterexample): a negative uploaded amount is stored negative, so
the normalized ledger does not satisfy `amount ≥ 0` for every record. -/
theorem C2_counterexample :
    ¬ ∀ r ∈ (normalizeTable rawNeg).rows, 0 ≤ r.amount := by
  decide

/-- C2 (witness): the amended theorem applied to a concrete session input. -/
theorem C2_witness :
    ((0 : ℚ) ≤ 250) ∧
      ∀ r ∈ (addTransaction ⟨requiredCols, []⟩ txnW2).rows,
        r ∈ (⟨requiredCols, []⟩ : Table).rows ∨ 0 ≤ r.amount :=
  ⟨by decide, C2_amended_amounts.2.2.2 ⟨requiredCols, []⟩ txnW2 (by decide)⟩

/-- C3 (amended): filtering with the default filter spec keeps exactly the
records with a non-null date; in particular the row count equals the full
ledger's row count whenever every record carries a date. -/
theorem C3_amended_default_filter (today : Date) (t : Table) :
    (filterEngine (defaultSpec today t) t).rows.length
        = (t.rows.filter fun r => r.date.isSome).length ∧
    ((∀ r ∈ t.rows, r.date.isSome = true) →
      (filterEngine (defaultSpec today t) t).rows.length = t.rows.length) := by
  have hfe : (filterEngine (defaultSpec today t) t).rows
      = t.rows.filter fun r => r.date.isSome := by
    show t.rows.filter _ = _
    exact List.filter_congr (rowPass_defaultSpec today t)
  constructor
  · rw [hfe]
  · intro hall
    rw [hfe, List.filter_eq_self.mpr hall]

/-- C3 (counterexample): on a ledger holding one record with a null date, the
default filter returns 0 rows, not the ledger's 1 row. -/
theorem C3_counterexample :
    ¬ ((filterEngine (defaultSpec ⟨2025, 1, 1⟩ ledgerNullDate) ledgerNullDate).rows.length
        = ledgerNullDate.rows.length) := by
  decide

/-- C3 (witness): the amended theorem applied to a fully-dated ledger. -/
theorem C3_witness :
    (∀ r ∈ ledgerC3w.rows, r.date.isSome = true) ∧
      (filterEngine (defaultSpec ⟨2025, 1, 1⟩ ledgerC3w) ledgerC3w).rows.length
        = ledgerC3w.rows.length :=
  ⟨by decide, (C3_amended_default_filter ⟨2025, 1, 1⟩ ledgerC3w).2 (by decide)⟩

/-- C4 (amended): the normalizer's output contains the five required columns
and preserves every input column (extra columns are not dropped); it creates
no column beyond the input's and the required five; a missing
Category/Notes/Gender column is created filled with the empty string, a
missing Amount column filled with 0 (and a missing Date column all-null). -/
theorem C4_amended_normalizer (t : RawTable) :
    (∀ c ∈ requiredCols, c ∈ (normalizeTable t).cols) ∧
    (∀ c ∈ t.cols, c ∈ (normalizeTable t).cols) ∧
    (∀ c ∈ (normalizeTable t).cols, c ∈ t.cols ∨ c ∈ requiredCols) ∧
    ("Category" ∉ t.cols → ∀ r ∈ (normalizeTable t).rows, r.category = "") ∧
    ("Notes" ∉ t.cols → ∀ r ∈ (normalizeTable t).rows, r.notes = "") ∧
    ("Gender" ∉ t.cols → ∀ r ∈ (normalizeTable t).rows, r.gender = "") ∧
    ("Amount" ∉ t.cols → ∀ r ∈ (normalizeTable t).rows, r.amount = 0) ∧
    ("Date" ∉ t.cols → ∀ r ∈ (normalizeTable t).rows, r.date = none) := by
  refine ⟨?_, ?_, ?_, ?_, ?_, ?_, ?_, ?_⟩
  · intro c hc
    simp only [requiredCols, List.mem_cons, List.not_mem_nil, or_false] at hc
    rcases hc with rfl | rfl | rfl | rfl | rfl
    · exact date_mem_normalized_cols t
    · exact mem_normalized_cols (by decide)
    · exact mem_normalized_cols (by decide)
    · exact mem_normalized_cols (by decide)
    · exact mem_normalized_cols (by decide)
  · intro c hc
    exact List.mem_append_left _ hc
  · intro c hc
    rcases List.mem_append.mp hc with h | h
    · exact Or.inl h
    · exact Or.inr (addedCols_subset t.cols c h)
  · intro h r hr
    obtain ⟨f, hf, rfl⟩ := List.mem_map.mp hr
    simp [normRow, h]
  · intro h r hr
    obtain ⟨f, hf, rfl⟩ := List.mem_map.mp hr
    simp [normRow, h]
  · intro h r hr
    obtain ⟨f, hf, rfl⟩ := List.mem_map.mp hr
    simp [normRow, h]
  · intro h r hr
    obtain ⟨f, hf, rfl⟩ := List.mem_map.mp hr
    simp [normRow, h]
  · intro h r hr
    obtain ⟨f, hf, rfl⟩ := List.mem_map.mp hr
    simp [normRow, h]

/-- C4 (counterexample): an uploaded frame with an unrecognized column `Foo`
normalizes to a frame that still has `Foo`, so the output's columns are not
exactly the required five. -/
theorem C4_counterexample :
    ¬ ∀ c ∈ (normalizeTable rawFoo).cols, c ∈ requiredCols := by
  decide

/-- C4 (witness): the amended theorem applied to an upload missing `Notes`. -/
theorem C4_witness :
    ("Notes" ∉ rawNoNotes.cols) ∧
      ∀ r ∈ (normalizeTable rawNoNotes).rows, r.notes = "" :=
  ⟨by decide, (C4_amended_normalizer rawNoNotes).2.2.2.2.1 (by decide)⟩

/-- C5 (confirmed): a record is in the Filter Engine's output iff it is in
the ledger, its displayed category is selected, its displayed gender is
selected, and its date is non-null and lies in the inclusive range; records
with null date are always excluded. -/
theorem C5_filter_iff (fs : FilterSpec) (t : Table) (r : Row) :
    r ∈ (filterEngine fs t).rows ↔
      r ∈ t.rows ∧ dispCat r.category ∈ fs.cats ∧ dispGender r.gender ∈ fs.genders ∧
        ∃ d, r.date = some d ∧ Date.le fs.startD d = true ∧ Date.le d fs.endD = true := by
  show r ∈ t.rows.filter (rowPass fs) ↔ _
  rw [List.mem_filter]
  refine and_congr_right fun _ => ?_
  unfold rowPass
  cases hd : r.date with
  | none => simp [hd]
  | some d => simp [hd, and_assoc]

/-- C6 (confirmed): the KPI block computes total = sum of amounts,
count = number of records, average = mean of amounts (0 on an empty subset),
and max = the greatest amount (0 on an empty subset) — the max both occurs
among the amounts and bounds every record's amount. -/
theorem C6_aggregator_kpis (t : Table) :
    kpiTotal t = (t.rows.map Row.amount).sum ∧
    kpiCount t = t.rows.length ∧
    (kpiCount t = 0 → kpiAvg t = 0 ∧ kpiMax t = 0) ∧
    (kpiCount t ≠ 0 →
      kpiAvg t = kpiTotal t / (kpiCount t : ℚ) ∧
      kpiMax t ∈ t.rows.map Row.amount ∧
      ∀ r ∈ t.rows, r.amount ≤ kpiMax t) := by
  refine ⟨rfl, rfl, ?_, ?_⟩
  · intro h
    have h0 : t.rows.length = 0 := h
    exact ⟨by rw [kpiAvg, if_pos h0], by rw [kpiMax, if_pos h0]⟩
  · intro h
    have h0 : ¬ (t.rows.length = 0) := h
    have hnil : t.rows.map Row.amount ≠ [] := by
      intro hc
      exact h0 (by simpa using congrArg List.length hc)
    obtain ⟨hmem, hbound⟩ := seriesMax_spec (t.rows.map Row.amount) hnil
    have hmax : kpiMax t = seriesMax (t.rows.map Row.amount) := by
      rw [kpiMax, if_neg h0]
    refine ⟨by rw [kpiAvg, if_neg h0]; rfl, by rw [hmax]; exact hmem, ?_⟩
    intro r hr
    rw [hmax]
    exact hbound r.amount (List.mem_map.mpr ⟨r, hr, rfl⟩)

/-- C6 (witness): the KPI theorem applied to a concrete two-record ledger. -/
theorem C6_witness :
    kpiCount ledgerC6 ≠ 0 ∧
      (kpiMax ledgerC6 ∈ ledgerC6.rows.map Row.amount ∧
        ∀ r ∈ ledgerC6.rows, r.amount ≤ kpiMax ledgerC6) :=
  ⟨by decide, ((C6_aggregator_kpis ledgerC6).2.2.2 (by decide)).2⟩

/-- C7 (confirmed): `top_n 5` returns min(5, n) records; its output is sorted
by decreasing amount with ties in original record order (`topKey`, the order
a stable descending sort realizes — pandas `nlargest(keep="first")`); every
returned record dominates every non-returned record in that order; and on a
subset with at most 5 records it returns exactly that subset (as a
permutation — pandas reorders it by descending amount). -/
theorem C7_top5_stable (t : Table) :
    (top_n 5 t).length = min 5 t.rows.length ∧
    List.Pairwise topKey (top_n 5 t) ∧
    (∀ p ∈ top_n 5 t, ∀ q ∈ t.rows.enum, q ∉ top_n 5 t → topKey p q) ∧
    (t.rows.length ≤ 5 → List.Perm (top_n 5 t) t.rows.enum) := by
  have hperm : List.Perm (List.insertionSort topKey t.rows.enum) t.rows.enum :=
    List.perm_insertionSort topKey _
  have hsorted : List.Sorted topKey (List.insertionSort topKey t.rows.enum) :=
    List.sorted_insertionSort topKey _
  have hlen : (List.insertionSort topKey t.rows.enum).length = t.rows.length := by
    rw [hperm.length_eq, List.enum_length]
  unfold top_n
  refine ⟨?_, ?_, ?_, ?_⟩
  · rw [List.length_take, hlen]
  · exact List.Pairwise.sublist (List.take_sublist 5 _) hsorted
  · intro p hp q hq hq2
    have hqs : q ∈ List.insertionSort topKey t.rows.enum := hperm.mem_iff.mpr hq
    have hsplit := List.take_append_drop 5 (List.insertionSort topKey t.rows.enum)
    have hpair : List.Pairwise topKey
        ((List.insertionSort topKey t.rows.enum).take 5 ++
          (List.insertionSort topKey t.rows.enum).drop 5) := by
      rw [hsplit]
      exact hsorted
    have hqdrop : q ∈ (List.insertionSort topKey t.rows.enum).drop 5 := by
      have hq3 : q ∈ (List.insertionSort topKey t.rows.enum).take 5 ++
          (List.insertionSort topKey t.rows.enum).drop 5 := by
        rw [hsplit]
        exact hqs
      rcases List.mem_append.mp hq3 with hcase | hcase
      · exact absurd hcase hq2
      · exact hcase
    exact (List.pairwise_append.mp hpair).2.2 p hp q hqdrop
  · intro h
    rw [List.take_of_length_le (by rw [hlen]; exact h)]
    exact hperm

/-- C7 (witness): on a concrete 3-record ledger (fewer than 5 records),
`top_n 5` returns exactly that subset. -/
theorem C7_witness :
    ledgerC7.rows.length ≤ 5 ∧ List.Perm (top_n 5 ledgerC7) ledgerC7.rows.enum :=
  ⟨by decide, (C7_top5_stable ledgerC7).2.2.2 (by decide)⟩

/-- C8 (confirmed): adding a transaction with notes `"lunch"` and tags
`["food", "monthly"]` appends a record whose stored notes are
`"lunch | Tags: food, monthly"`. -/
theorem C8_tags_appended (t : Table) :
    (addTransaction t txnLunch).rows.map Row.notes
      = t.rows.map Row.notes ++ ["lunch | Tags: food, monthly"] := by
  show (t.rows ++ [_]).map Row.notes = _
  rw [List.map_append]
  congr 1

/-- C9 (confirmed): an unreadable upload raises the user-visible error flag
and the pipeline continues on an empty table that still has the five required
columns; filtering returns no rows and every KPI degrades to 0 — nothing in
the filter/aggregate pipeline fails on the empty input. -/
theorem C9_upload_error_fallback :
    (processUpload none).1 = true ∧
    (processUpload none).2.cols = requiredCols ∧
    (processUpload none).2.rows = [] ∧
    (∀ fs, (filterEngine fs (processUpload none).2).rows = []) ∧
    kpiTotal (processUpload none).2 = 0 ∧
    kpiCount (processUpload none).2 = 0 ∧
    kpiAvg (processUpload none).2 = 0 ∧
    kpiMax (processUpload none).2 = 0 :=
  ⟨rfl, by decide, rfl, fun fs => rfl, rfl, rfl, rfl, rfl⟩

/-- C10 (confirmed): adding a transaction with empty notes and tags
`["food", "monthly"]` stores notes `"| Tags: food, monthly"` — the leading
space of the `" | Tags: ..."` suffix is stripped — and not the plain suffix
form `" | Tags: food, monthly"`. -/
theorem C10_empty_notes_stripped (t : Table) :
    (addTransaction t txnEmptyNotes).rows.map Row.notes
        = t.rows.map Row.notes ++ ["| Tags: food, monthly"] ∧
    buildNotes "" ["food", "monthly"] ≠ " | Tags: food, monthly" := by
  constructor
  · show (t.rows ++ [_]).map Row.notes = _
    rw [List.map_append]
    congr 1
  · decide

end App1
